import Mathlib

/-!
Shallow embedding of the CV distribution pipeline of the cvgo repository:

* `services/cvDistributionService.js` (source file `src/unnamed/part_008`):
  `CVDistributionService.distributeCVToAgencies`, `extractRegionFromCandidate`,
  `getEligibleAgencies`, `processDistributionQueue`, `processSingleDistribution`,
  `processBatch`, `sendCVToAgency`, `updateDailyCount`.
* `src/middleware/distributionMonitoring.js`:
  `DistributionMonitor.logDistributionAttempt`, `DistributionMonitor.getHealthStatus`.

Modelling conventions:

* Timestamps (`Date` values) are epoch milliseconds, represented as `Int`.
* JavaScript floating-point rates (`successful / totalAttempts` etc.) are
  represented exactly in `ℚ`.
* Mongo documents are Lean structures; a missing field is `Option.none`.
* The JavaScript `||`-default idiom (`settings.maxCVsPerDay || 50`) is
  captured by `jsOrNat`, which treats `0` as falsy exactly as JavaScript does.
* `String.prototype.toLowerCase` / `String.prototype.includes` are modelled
  character-wise (`jsToLower` / `jsIncludes`); `Char.toLower` only affects
  ASCII letters, matching `toLowerCase` on the Hebrew/Latin strings involved.
* The email transport (`emailService.sendCVDistributionEmail`) is an oracle
  `emailOk : String → Bool` giving, per recipient address, whether the send
  promise fulfils; per-agency send durations (for the timing claims) are an
  oracle `Nat`-valued duration function.  Promise timing is modelled with the
  event-loop discipline of the source: the only suspension points are the
  explicit `delay(...)` awaits and the final `Promise.allSettled`.
* In-process mutable state (`this.distributionQueue`, `this.isProcessing`,
  the monitor's `healthChecks` map, the `Company` collection) is threaded
  explicitly. The monitor's `Map` with fresh random keys is an
  insertion-ordered association, so its values form a `List` in insertion
  order.
-/

namespace CVGo

/-- JavaScript `x || d` for an optional number field: `0`, like `undefined`,
is falsy and yields the default (`settings.maxCVsPerDay || 50`). -/
def jsOrNat (x : Option Nat) (d : Nat) : Nat :=
  match x with
  | some 0 => d
  | some v => v
  | none => d

/-- JavaScript `x || d` for an optional string field: the empty string is falsy. -/
def jsOrStr (x : Option String) (d : String) : String :=
  match x with
  | some s => if s = "" then d else s
  | none => d

/-- JavaScript `String.prototype.toLowerCase`, character-wise. -/
def jsToLower (s : String) : String := ⟨s.data.map Char.toLower⟩

/-- Does the character list start with the given pattern? (helper for
`jsIncludes`). -/
def charsStartWith : List Char → List Char → Bool
  | _, [] => true
  | [], _ :: _ => false
  | c :: cs, d :: ds => c == d && charsStartWith cs ds

/-- Does the character list contain the pattern as a contiguous run? -/
def charsContain : List Char → List Char → Bool
  | [], needle => needle.isEmpty
  | hay@(_ :: rest), needle => charsStartWith hay needle || charsContain rest needle

/-- JavaScript `s.includes(sub)`. -/
def jsIncludes (s sub : String) : Bool := charsContain s.data sub.data

/-- Agency distribution settings sub-document
(`Company.distributionSettings`); every field may be absent. -/
structure DistributionSettings where
  maxCVsPerDay : Option Nat
  dailyCount : Option Nat
  lastCountReset : Option Int
  deriving DecidableEq, Repr

/-- Agency record (`Company` document), restricted to the fields the
distribution service reads. `recruitmentEmails` pairs each address with its
`isActive` flag. -/
structure Agency where
  id : Nat
  companyName : String
  isRecruitmentAgency : Bool
  isRecruitmentAccess : String
  isActive : Bool
  recruitmentEmails : List (String × Bool)
  supportRegions : List String
  distributionSettings : Option DistributionSettings
  deriving DecidableEq, Repr

/-- Subscription record, restricted to the fields read at eligibility time. -/
structure Subscription where
  companyId : Nat
  status : String
  expirationDate : Int
  deriving DecidableEq, Repr

/-- Candidate record, restricted to the fields the distribution service
reads (positions are kept as their titles). -/
structure Candidate where
  id : Nat
  name : String
  location : Option String
  address : Option String
  city : Option String
  positions : List String
  deriving DecidableEq, Repr

/-- One pending distribution job (`distributionTask` in
`distributeCVToAgencies`); the job id `${candidate._id}_${Date.now()}` is kept
as its two components. -/
structure DistributionTask where
  candidate : Candidate
  agencies : List (Agency × Nat)
  timestamp : Int
  idCandidate : Nat
  idTime : Int
  deriving DecidableEq, Repr

/-- Result value of `distributeCVToAgencies`. -/
structure DistributeResult where
  success : Bool
  distributed : Nat
  deriving DecidableEq, Repr

/-- Per-batch tally returned by `processBatch`. -/
structure BatchResult where
  success : Nat
  errors : Nat
  deriving DecidableEq, Repr

/-- The service's constructor constants: `this.maxBatchSize = 100`. -/
def maxBatchSize : Nat := 100

/-- The service's constructor constants: `this.batchDelay = 1000` (ms),
used between queue tasks. -/
def batchDelay : Nat := 1000

/-- The literal `500` (ms) delay between batch dispatches inside
`processSingleDistribution`. -/
def interBatchDelayMs : Nat := 500

/-- 24 hours in milliseconds (`24 * 60 * 60 * 1000`). -/
def oneDayMs : Int := 24 * 60 * 60 * 1000

/-- Canonical region tokens accepted directly from `candidate.location`. -/
def regionTokens : List String := ["north", "center", "lowlands", "south"]

/-- The static city→region lookup table of `extractRegionFromCandidate`, in
source (insertion) order, as iterated by `Object.entries`. -/
def regionMap : List (String × String) :=
  [ ("חיפה", "north"), ("נצרת", "north"), ("טבריה", "north"), ("קריית שמונה", "north"),
    ("עכו", "north"), ("נהריה", "north"), ("צפת", "north"), ("קצרין", "north"),
    ("כרמיאל", "north"), ("מעלות", "north"), ("קריית ביאליק", "north"),
    ("תל אביב", "center"), ("רמת גן", "center"), ("פתח תקווה", "center"),
    ("הרצליה", "center"), ("נתניה", "center"), ("רעננה", "center"),
    ("הוד השרון", "center"), ("ראשון לציון", "center"), ("בני ברק", "center"),
    ("רמת השרון", "center"), ("כפר סבא", "center"), ("רחובות", "center"),
    ("אשדוד", "lowlands"), ("גדרה", "lowlands"), ("יבנה", "lowlands"),
    ("אשקלון", "lowlands"), ("נס ציונה", "lowlands"), ("קריית מלאכי", "lowlands"),
    ("באר שבע", "south"), ("אילת", "south"), ("דימונה", "south"),
    ("נתיבות", "south"), ("אופקים", "south"), ("ערד", "south"),
    ("ירושלים", "center"), ("בית שמש", "center"), ("מעלה אדומים", "center") ]

/-- Fallback branch of `extractRegionFromCandidate`: map
`(candidate.address || candidate.city || '').toLowerCase()` through the city
table, first match wins, default `'center'`. -/
def extractRegionFallback (c : Candidate) : String :=
  let location := jsToLower (jsOrStr c.address (jsOrStr c.city ""))
  match regionMap.find? (fun p => jsIncludes location p.1) with
  | some p => p.2
  | none => "center"

/-- `CVDistributionService.extractRegionFromCandidate`: use
`candidate.location` directly when it is a (truthy) canonical region token,
otherwise fall back to the city table. -/
def extractRegionFromCandidate (c : Candidate) : String :=
  match c.location with
  | some l =>
      if l ≠ "" ∧ regionTokens.contains (jsToLower l) then jsToLower l
      else extractRegionFallback c
  | none => extractRegionFallback c

/-- The Mongo query filter of `getEligibleAgencies`
(`Company.find({isRecruitmentAgency: true, isRecruitmentAccess: 'approved',
isActive: true, 'recruitmentEmails.0': {$exists: true},
supportRegions: {$in: [candidateRegion]}})`). -/
def matchesAgencyQuery (region : String) (a : Agency) : Bool :=
  a.isRecruitmentAgency && a.isRecruitmentAccess == "approved" && a.isActive
    && !a.recruitmentEmails.isEmpty && a.supportRegions.contains region

/-- The subscription query of `getEligibleAgencies`
(`Subscription.find({companyId: {$in: companyIds}, status: 'active',
expirationDate: {$gt: now}})`), projected to company ids. -/
def activeSubscriptionCompanyIds (now : Int) (companyIds : List Nat)
    (subs : List Subscription) : List Nat :=
  (subs.filter (fun s =>
    companyIds.contains s.companyId && s.status == "active"
      && decide (s.expirationDate > now))).map (·.companyId)

/-- `const maxDaily = settings.maxCVsPerDay || 50` (with
`settings = agency.distributionSettings || {}`). -/
def agencyMaxDaily (a : Agency) : Nat :=
  jsOrNat (a.distributionSettings.bind (·.maxCVsPerDay)) 50

/-- `const dailyCount = settings.dailyCount || 0`. -/
def agencyStoredDailyCount (a : Agency) : Nat :=
  jsOrNat (a.distributionSettings.bind (·.dailyCount)) 0

/-- `const lastReset = settings.lastCountReset || new Date(0)` (a stored
epoch-0 date and a missing field behave identically). -/
def agencyLastCountReset (a : Agency) : Int :=
  (a.distributionSettings.bind (·.lastCountReset)).getD 0

/-- The read-side virtual reset of `getEligibleAgencies`:
`currentDailyCount = dailyCount`, reset to `0` if `lastReset < oneDayAgo`. -/
def effectiveDailyCount (now : Int) (a : Agency) : Nat :=
  if agencyLastCountReset a < now - oneDayMs then 0 else agencyStoredDailyCount a

/-- `CVDistributionService.getEligibleAgencies`: region/approval query, then
intersection with currently-valid subscriptions, then the read-side daily
limit check; survivors are annotated with their effective daily count
(`{...agency, currentDailyCount}`).  Purely read-side: no counter is written. -/
def getEligibleAgencies (now : Int) (companies : List Agency)
    (subs : List Subscription) (candidateRegion : String) : List (Agency × Nat) :=
  let agencies := companies.filter (matchesAgencyQuery candidateRegion)
  let activeIds := activeSubscriptionCompanyIds now (agencies.map (·.id)) subs
  agencies.filterMap (fun a =>
    if activeIds.contains a.id then
      if effectiveDailyCount now a < agencyMaxDaily a then
        some (a, effectiveDailyCount now a)
      else none
    else none)

/-- `CVDistributionService.updateDailyCount`, the quota update run after a
successful send, as its two sequential Mongo updates on one agency document:

1. `findOneAndUpdate({_id, 'distributionSettings.lastCountReset': {$lt: oneDayAgo}},
   {$set: {dailyCount: 1, lastCountReset: now}})` — matches only when the
   stored reset timestamp exists and is stale;
2. `findByIdAndUpdate(companyId, {$inc: {'distributionSettings.dailyCount': 1}})`
   — unconditional increment (`$inc` treats a missing field as `0`). -/
def updateDailyCount (now : Int) (s : DistributionSettings) : DistributionSettings :=
  let s1 :=
    match s.lastCountReset with
    | some t =>
        if t < now - oneDayMs then
          { s with dailyCount := some 1, lastCountReset := some now }
        else s
    | none => s
  { s1 with dailyCount := some (s1.dailyCount.getD 0 + 1) }

/-- The `Company` collection restricted to what `updateDailyCount` touches:
each agency id with its distribution settings. -/
def updateDailyCountById (now : Int) (store : List (Nat × DistributionSettings))
    (companyId : Nat) : List (Nat × DistributionSettings) :=
  store.map (fun p => if p.1 = companyId then (p.1, updateDailyCount now p.2) else p)

/-- `CVDistributionService.sendCVToAgency`: fails (rejects) when the agency
has no active recruitment address; otherwise sends to every active address
via `Promise.all`, so the agency-level promise fulfils exactly when every
address send fulfils. -/
def sendCVToAgency (emailOk : String → Bool) (_candidate : Candidate)
    (agency : Agency) : Bool :=
  let activeEmails := (agency.recruitmentEmails.filter (·.2)).map (·.1)
  if activeEmails.isEmpty then false
  else activeEmails.all emailOk

/-- One in-memory `DispatchOutcome` record (`logEntry` in
`DistributionMonitor.logDistributionAttempt`). -/
structure LogEntry where
  timestamp : Int
  candidateId : Nat
  agencyId : Nat
  success : Bool
  error : Option String
  processingTime : Int
  deriving DecidableEq, Repr

/-- `CVDistributionService.processBatch`: fan out `sendCVToAgency` over the
batch, `Promise.allSettled`, then tally — a fulfilled send bumps `success`
and runs `updateDailyCount(agency._id)`, a rejected one bumps `errors` and is
only logged.  The monitor buffer is threaded through untouched because the
source never invokes `DistributionMonitor.logDistributionAttempt` here (or
anywhere else in the dispatch path). -/
def processBatch (emailOk : String → Bool) (now : Int) (candidate : Candidate)
    (agencies : List Agency) (store : List (Nat × DistributionSettings))
    (monitorBuf : List LogEntry) :
    BatchResult × List (Nat × DistributionSettings) × List LogEntry :=
  agencies.foldl
    (fun acc agency =>
      if sendCVToAgency emailOk candidate agency then
        (⟨acc.1.success + 1, acc.1.errors⟩,
          updateDailyCountById now acc.2.1 agency.id, acc.2.2)
      else
        (⟨acc.1.success, acc.1.errors + 1⟩, acc.2.1, acc.2.2))
    (⟨0, 0⟩, store, monitorBuf)

/-- The batch slicing loop of `processSingleDistribution`
(`for (i = 0; i < agencies.length; i += maxBatchSize) slice(i, i + maxBatchSize)`),
with an explicit fuel argument (the list length) standing for the loop
counter; each iteration consumes at least one element, so the fuel suffices. -/
def batchSlicesAux {α : Type} : Nat → List α → List (List α)
  | 0, _ => []
  | _, [] => []
  | fuel + 1, ags => ags.take maxBatchSize :: batchSlicesAux fuel (ags.drop maxBatchSize)

/-- The consecutive batches `processSingleDistribution` builds from a job's
agency list. -/
def batchSlices {α : Type} (ags : List α) : List (List α) :=
  batchSlicesAux ags.length ags

/-- Dispatch schedule of the batch loop: each batch is paired with the time
(ms from job start) at which `processBatch` is invoked for it.  The loop body
starts the batch promise immediately (it is not awaited) and then awaits
`delay(500)` only when more agencies remain; the batch promises are jointly
awaited by `Promise.allSettled` after the loop. -/
def scheduleBatches {α : Type} : Nat → List (List α) → List (List α × Nat)
  | _, [] => []
  | t, b :: rest =>
      (b, t) :: scheduleBatches (if rest.isEmpty then t else t + interBatchDelayMs) rest

/-- Timing view of `CVDistributionService.processSingleDistribution`:
the batches of the job with their dispatch times. -/
def processSingleDistributionSchedule {α : Type} (ags : List α) : List (List α × Nat) :=
  scheduleBatches 0 (batchSlices ags)

/-- Settlement offset of one batch whose per-agency sends run concurrently:
the batch settles when its slowest send does. -/
def batchMaxDuration {α : Type} (sendDur : α → Nat) (b : List α) : Nat :=
  (b.map sendDur).foldl Nat.max 0

/-- The queue/flag state of the `CVDistributionService` singleton. -/
structure ServiceState where
  isProcessing : Bool
  distributionQueue : List DistributionTask
  deriving DecidableEq, Repr

/-- Drain schedule of `processDistributionQueue`'s `while` loop: tasks are
shifted from the front and each is fully processed (`await
processSingleDistribution(task)`, taking `dur task` ms) before the next; when
the queue is still non-empty afterwards, `await delay(this.batchDelay)`
inserts a 1000 ms pause before the next task starts. Each task is paired with
its start time. -/
def drainSchedule (dur : DistributionTask → Nat) :
    Nat → List DistributionTask → List (DistributionTask × Nat)
  | _, [] => []
  | t, task :: rest =>
      (task, t) ::
        drainSchedule dur
          (if rest.isEmpty then t + dur task else t + dur task + batchDelay) rest

/-- `CVDistributionService.processDistributionQueue`: no-op re-entry guard on
`isProcessing` or an empty queue; otherwise set the flag, drain every task
sequentially, and (in `finally`) clear the flag with the queue now empty.
Returns the final state and the drain schedule. -/
def processDistributionQueue (dur : DistributionTask → Nat) (s : ServiceState) :
    ServiceState × List (DistributionTask × Nat) :=
  if s.isProcessing || s.distributionQueue.isEmpty then (s, [])
  else (⟨false, []⟩, drainSchedule dur 0 s.distributionQueue)

/-- `CVDistributionService.distributeCVToAgencies`: validate the candidate
(throws `'Invalid candidate data'` when `positions` is empty), derive the
region, resolve eligible agencies; with zero agencies return
`{success: true, distributed: 0}` without enqueueing; otherwise enqueue one
`distributionTask` and return `{success: true, distributed: eligible.length}`
immediately (queue processing is fire-and-forget, so the result never
reflects delivery outcomes). -/
def distributeCVToAgencies (now : Int) (companies : List Agency)
    (subs : List Subscription) (queue : List DistributionTask)
    (candidate : Candidate) :
    Except String (DistributeResult × List DistributionTask) :=
  if candidate.positions.isEmpty then
    Except.error "Invalid candidate data"
  else
    let candidateRegion := extractRegionFromCandidate candidate
    let eligibleAgencies := getEligibleAgencies now companies subs candidateRegion
    if eligibleAgencies.length = 0 then
      Except.ok (⟨true, 0⟩, queue)
    else
      Except.ok (⟨true, eligibleAgencies.length⟩,
        queue ++ [⟨candidate, eligibleAgencies, now, candidate.id, now⟩])

/-- `DistributionMonitor.logDistributionAttempt`: append the new entry to the
insertion-ordered buffer; if the size now exceeds 1000, delete the oldest 100
entries (`Array.from(keys()).slice(0, 100)` enumerates keys in insertion
order). -/
def logDistributionAttempt (now : Int) (buf : List LogEntry)
    (candidateId agencyId : Nat) (success : Bool) (error : Option String)
    (processingTime : Int) : List LogEntry :=
  let logEntry : LogEntry := ⟨now, candidateId, agencyId, success, error, processingTime⟩
  let buf1 := buf ++ [logEntry]
  if buf1.length > 1000 then buf1.drop 100 else buf1

/-- The trailing-hour window of `getHealthStatus`
(`Date.now() - log.timestamp.getTime() < 3600000`). -/
def recentLogs (now : Int) (buf : List LogEntry) : List LogEntry :=
  buf.filter (fun log => decide (now - log.timestamp < 3600000))

/-- `totalAttempts` over the window. -/
def windowTotal (now : Int) (buf : List LogEntry) : Nat :=
  (recentLogs now buf).length

/-- `successful` over the window. -/
def windowSuccessful (now : Int) (buf : List LogEntry) : Nat :=
  ((recentLogs now buf).filter (·.success)).length

/-- `failed = totalAttempts - successful`. -/
def windowFailed (now : Int) (buf : List LogEntry) : Nat :=
  windowTotal now buf - windowSuccessful now buf

/-- `successRate = successful / totalAttempts` (exact rational in place of the
source's float). -/
def windowSuccessRate (now : Int) (buf : List LogEntry) : ℚ :=
  (windowSuccessful now buf : ℚ) / (windowTotal now buf : ℚ)

/-- `failureRate = failed / totalAttempts`. -/
def windowFailureRate (now : Int) (buf : List LogEntry) : ℚ :=
  (windowFailed now buf : ℚ) / (windowTotal now buf : ℚ)

/-- `avgProcessingTime = Σ (log.processingTime || 0) / totalAttempts`
(the entry's `processingTime` is always a number here, so `|| 0` only maps
`0` to itself). -/
def windowAvgProcessingTime (now : Int) (buf : List LogEntry) : ℚ :=
  (((recentLogs now buf).map (·.processingTime)).sum : ℚ) / (windowTotal now buf : ℚ)

/-- `this.alertThresholds.maxFailureRate = 0.1`. -/
def maxFailureRateThreshold : ℚ := 1/10

/-- `this.alertThresholds.maxProcessingTime = 30000`. -/
def maxProcessingTimeThreshold : ℚ := 30000

/-- `this.alertThresholds.minSuccessRate = 0.9`. -/
def minSuccessRateThreshold : ℚ := 9/10

/-- The three health issues `getHealthStatus` can push; the interpolated
metric text of each issue string is abstracted away. -/
inductive DistIssue where
  | highFailureRate
  | slowProcessing
  | lowSuccessRate
  deriving DecidableEq, Repr

/-- The sequential status/issue assignment block of `getHealthStatus`:
start from `'healthy'`/`[]`, each triggered condition overwrites `status` and
appends its issue, in source order (failure rate, processing time, success
rate — so the `'critical'` assignment runs last). -/
def classifyHealth (failureRate avgProcessingTime successRate : ℚ) :
    String × List DistIssue :=
  let st0 := "healthy"
  let is0 : List DistIssue := []
  let st1 := if failureRate > maxFailureRateThreshold then "warning" else st0
  let is1 := if failureRate > maxFailureRateThreshold then is0 ++ [DistIssue.highFailureRate] else is0
  let st2 := if avgProcessingTime > maxProcessingTimeThreshold then "warning" else st1
  let is2 := if avgProcessingTime > maxProcessingTimeThreshold then is1 ++ [DistIssue.slowProcessing] else is1
  let st3 := if successRate < minSuccessRateThreshold then "critical" else st2
  let is3 := if successRate < minSuccessRateThreshold then is2 ++ [DistIssue.lowSuccessRate] else is2
  (st3, is3)

/-- Severity order of health statuses (critical > warning > everything else). -/
def severityRank : String → Nat
  | "warning" => 1
  | "critical" => 2
  | _ => 0

/-- Health report of `DistributionMonitor.getHealthStatus` (the formatted
`message` string is abstracted away; the rates are kept unrounded). -/
structure HealthStatus where
  status : String
  totalAttempts : Nat
  successful : Nat
  failed : Nat
  successRate : ℚ
  failureRate : ℚ
  avgProcessingTime : ℚ
  issues : List DistIssue

/-- `DistributionMonitor.getHealthStatus`: over the trailing-hour window,
return `'unknown'` when it is empty, otherwise classify the rates; the
`issues` field is `status !== 'healthy' ? issues : []` as in the source. -/
def getHealthStatus (now : Int) (buf : List LogEntry) : HealthStatus :=
  if windowTotal now buf = 0 then
    ⟨"unknown", 0, 0, 0, 0, 0, 0, []⟩
  else
    let c := classifyHealth (windowFailureRate now buf)
      (windowAvgProcessingTime now buf) (windowSuccessRate now buf)
    ⟨c.1, windowTotal now buf, windowSuccessful now buf, windowFailed now buf,
      windowSuccessRate now buf, windowFailureRate now buf,
      windowAvgProcessingTime now buf,
      if c.1 ≠ "healthy" then c.2 else []⟩

/-! Concrete sample data used in witnesses and counterexamples. -/

/-- A fixed "current time" for concrete scenarios (epoch ms, well past one day). -/
def tNow : Int := 200000000000

/-- Settings of an agency at its daily cap whose last reset is two days old. -/
def setStaleCap : DistributionSettings := ⟨some 50, some 50, some (tNow - 2 * oneDayMs)⟩

/-- Settings of an agency at its daily cap whose last reset is fresh. -/
def setFreshCap : DistributionSettings := ⟨some 50, some 50, some (tNow - 1000)⟩

/-- Settings of an agency far below its daily cap with a fresh reset. -/
def setFreshLow : DistributionSettings := ⟨some 50, some 3, some (tNow - 1000)⟩

/-- Approved, active, south-region agency at its cap with a stale reset. -/
def agStaleCap : Agency :=
  ⟨10, "StaleCap", true, "approved", true, [("stale@agency.example", true)],
    ["south"], some setStaleCap⟩

/-- Approved, active, south-region agency at its cap with a fresh reset. -/
def agFreshCap : Agency :=
  ⟨11, "FreshCap", true, "approved", true, [("fresh@agency.example", true)],
    ["south"], some setFreshCap⟩

/-- Approved, active, south-region agency below its cap. -/
def agFreshLow : Agency :=
  ⟨12, "FreshLow", true, "approved", true, [("low@agency.example", true)],
    ["south"], some setFreshLow⟩

/-- Agency whose only recruitment address is inactive, so its send rejects. -/
def agNoActive : Agency :=
  ⟨13, "NoActiveEmails", true, "approved", true, [("off@agency.example", false)],
    ["south"], some setFreshLow⟩

/-- Valid subscriptions for the sample agencies. -/
def subsSample : List Subscription :=
  [⟨10, "active", tNow + 1000⟩, ⟨11, "active", tNow + 1000⟩,
   ⟨12, "active", tNow + 1000⟩, ⟨13, "active", tNow + 1000⟩]

/-- Candidate whose `location` is the canonical token `south`. -/
def candSouth : Candidate := ⟨1, "Dana", some "south", none, none, ["engineer"]⟩

/-- Two distinguishable queued distribution jobs. -/
def taskA : DistributionTask := ⟨candSouth, [], tNow, 1, tNow⟩

/-- Second sample job. -/
def taskB : DistributionTask := ⟨candSouth, [], tNow, 2, tNow⟩

/-- The i-th distinguishable dispatch outcome used for ring-buffer scenarios. -/
def mkOutcome (i : Nat) : LogEntry := ⟨0, i, 0, true, none, 0⟩

/-- The first n distinguishable outcomes, in insertion order. -/
def mkOutcomes (n : Nat) : List LogEntry := (List.range n).map mkOutcome

/-- Insert the first n distinguishable outcomes into an empty monitor buffer
through `logDistributionAttempt`. -/
def insertOutcomes (n : Nat) : List LogEntry :=
  (List.range n).foldl (fun b i => logDistributionAttempt 0 b i 0 true none 0) []

/-- A trailing-hour monitor buffer with 20 attempts: 17 successes and 3
failures (failure rate 15%, success rate 85%). -/
def bufHealth : List LogEntry :=
  (List.range 17).map (fun i => ⟨0, i, 0, true, none, 0⟩)
    ++ (List.range 3).map (fun i => ⟨0, 100 + i, 0, false, none, 0⟩)

/-! Theorems. -/

set_option maxRecDepth 8192

/-- C1: The claim says a successful delivery for an agency with a stale
`lastCountReset` leaves `dailyCount` exactly 1.  Evaluating the source's
`updateDailyCount` on such an agency shows it leaves `dailyCount = 2`: the
conditional reset writes `dailyCount = 1`, and the second update — despite
the source comment "If not reset, just increment" — increments
unconditionally.  For a fresh `lastCountReset` the count is incremented by
exactly 1 as claimed. -/
theorem c1_updateDailyCount_stale_reaches_two :
    updateDailyCount (2 * oneDayMs) ⟨some 50, some 50, some 0⟩
      = ⟨some 50, some 2, some (2 * oneDayMs)⟩
    ∧ updateDailyCount (2 * oneDayMs) ⟨some 50, some 7, some (2 * oneDayMs - 1000)⟩
      = ⟨some 50, some 8, some (2 * oneDayMs - 1000)⟩ := by
  decide

/-- Helper: `processBatch` never touches the monitor buffer it threads. -/
theorem processBatch_monitor_eq (emailOk : String → Bool) (now : Int)
    (cand : Candidate) (ags : List Agency)
    (store : List (Nat × DistributionSettings)) (mon : List LogEntry) :
    (processBatch emailOk now cand ags store mon).2.2 = mon := by
  unfold processBatch
  suffices h : ∀ (acc : BatchResult × List (Nat × DistributionSettings) × List LogEntry),
      (ags.foldl (fun acc agency =>
        if sendCVToAgency emailOk cand agency then
          (⟨acc.1.success + 1, acc.1.errors⟩,
            updateDailyCountById now acc.2.1 agency.id, acc.2.2)
        else
          (⟨acc.1.success, acc.1.errors + 1⟩, acc.2.1, acc.2.2)) acc).2.2
        = acc.2.2 by
    exact h (⟨0, 0⟩, store, mon)
  induction ags with
  | nil => intro acc; rfl
  | cons a l ih =>
      intro acc
      simp only [List.foldl_cons]
      split
      · exact ih _
      · exact ih _

/-- C2: The claim says every per-agency send attempt emits exactly one
DispatchOutcome to the DistributionMonitor buffer.  In the source,
`processBatch` (and the whole dispatch path) never calls
`logDistributionAttempt`: the buffer is left untouched for every batch, and
in particular a batch with one successful attempt adds zero entries, not
one. -/
theorem c2_processBatch_emits_no_outcome :
    (∀ (emailOk : String → Bool) (now : Int) (cand : Candidate)
        (ags : List Agency) (store : List (Nat × DistributionSettings))
        (mon : List LogEntry),
        (processBatch emailOk now cand ags store mon).2.2 = mon)
    ∧ (processBatch (fun _ => true) tNow candSouth [agFreshLow] [] []).1 = ⟨1, 0⟩
    ∧ (processBatch (fun _ => true) tNow candSouth [agFreshLow] [] []).2.2.length = 0 := by
  refine ⟨processBatch_monitor_eq, ?_, ?_⟩ <;> decide

/-- Helper: every agency of a batch is tallied exactly once by
`processBatch`, whatever happens to the individual sends. -/
theorem processBatch_total (emailOk : String → Bool) (now : Int)
    (cand : Candidate) (ags : List Agency)
    (store : List (Nat × DistributionSettings)) (mon : List LogEntry) :
    (processBatch emailOk now cand ags store mon).1.success
      + (processBatch emailOk now cand ags store mon).1.errors = ags.length := by
  unfold processBatch
  suffices h : ∀ (acc : BatchResult × List (Nat × DistributionSettings) × List LogEntry),
      (ags.foldl (fun acc agency =>
        if sendCVToAgency emailOk cand agency then
          (⟨acc.1.success + 1, acc.1.errors⟩,
            updateDailyCountById now acc.2.1 agency.id, acc.2.2)
        else
          (⟨acc.1.success, acc.1.errors + 1⟩, acc.2.1, acc.2.2)) acc).1.success
        + (ags.foldl (fun acc agency =>
        if sendCVToAgency emailOk cand agency then
          (⟨acc.1.success + 1, acc.1.errors⟩,
            updateDailyCountById now acc.2.1 agency.id, acc.2.2)
        else
          (⟨acc.1.success, acc.1.errors + 1⟩, acc.2.1, acc.2.2)) acc).1.errors
        = acc.1.success + acc.1.errors + ags.length by
    simpa using h (⟨0, 0⟩, store, mon)
  induction ags with
  | nil => intro acc; simp
  | cons a l ih =>
      intro acc
      simp only [List.foldl_cons]
      split
      · rw [ih]; simp; omega
      · rw [ih]; simp; omega

/-- C4: In a batch `[A, B]` where A's send rejects and B's send fulfils, the
settled tally counts B as the one success and A as the one failure, B's
daily count is still updated, the monitor state is untouched, and no
exception escapes: `processBatch` is total and tallies every agency of any
batch (so a failure aborts neither siblings nor later batches or jobs). -/
theorem c4_sibling_failure_isolated (emailOk : String → Bool) (now : Int)
    (cand : Candidate) (A B : Agency)
    (store : List (Nat × DistributionSettings)) (mon : List LogEntry)
    (hA : sendCVToAgency emailOk cand A = false)
    (hB : sendCVToAgency emailOk cand B = true) :
    processBatch emailOk now cand [A, B] store mon
      = (⟨1, 1⟩, updateDailyCountById now store B.id, mon)
    ∧ ∀ (ags : List Agency),
        (processBatch emailOk now cand ags store mon).1.success
          + (processBatch emailOk now cand ags store mon).1.errors = ags.length := by
  constructor
  · unfold processBatch
    simp [hA, hB]
  · intro ags
    exact processBatch_total emailOk now cand ags store mon

/-- Witness for C4: concrete batch in which the first agency has no active
address (its send rejects) and the second fulfils. -/
theorem c4_sibling_failure_isolated_witness :
    processBatch (fun _ => true) tNow candSouth [agNoActive, agFreshLow]
        [(12, setFreshLow)] []
      = (⟨1, 1⟩, updateDailyCountById tNow [(12, setFreshLow)] agFreshLow.id, [])
    ∧ (processBatch (fun _ => true) tNow candSouth [agNoActive, agFreshLow]
        [(12, setFreshLow)] []).1.success
      + (processBatch (fun _ => true) tNow candSouth [agNoActive, agFreshLow]
        [(12, setFreshLow)] []).1.errors = 2 := by
  have h := c4_sibling_failure_isolated (fun _ => true) tNow candSouth
    agNoActive agFreshLow [(12, setFreshLow)] [] (by decide) (by decide)
  exact ⟨h.1, h.2 [agNoActive, agFreshLow]⟩

/-- C5: During eligibility resolution, for an agency passing the region query
and the subscription check, inclusion is decided purely read-side from the
effective daily count — `0` when `lastCountReset` is stale (older than 24h),
the stored `dailyCount` otherwise — and the agency is excluded exactly when
that effective count reaches `maxPerDay` (50 when unset); the annotation
attached to a surviving agency is that effective count, and no counter is
written (the resolver only reads).  Hence an agency at its cap with a fresh
reset is excluded while the same agency with a stale reset stays eligible. -/
theorem c5_eligibility_virtual_reset (now : Int) (companies : List Agency)
    (subs : List Subscription) (region : String) (a : Agency)
    (hmem : a ∈ companies) (hq : matchesAgencyQuery region a = true)
    (hsub : (activeSubscriptionCompanyIds now
        ((companies.filter (matchesAgencyQuery region)).map (·.id)) subs).contains
        a.id = true) :
    ((a, effectiveDailyCount now a) ∈ getEligibleAgencies now companies subs region
      ↔ effectiveDailyCount now a < agencyMaxDaily a)
    ∧ (agencyLastCountReset a < now - oneDayMs → effectiveDailyCount now a = 0)
    ∧ (¬ agencyLastCountReset a < now - oneDayMs →
        effectiveDailyCount now a = agencyStoredDailyCount a)
    ∧ (∀ c, (a, c) ∈ getEligibleAgencies now companies subs region →
        c = effectiveDailyCount now a) := by
  have hmem' : a ∈ companies.filter (matchesAgencyQuery region) :=
    List.mem_filter.mpr ⟨hmem, hq⟩
  refine ⟨⟨?_, ?_⟩, ?_, ?_, ?_⟩
  · intro h
    rw [getEligibleAgencies, List.mem_filterMap] at h
    obtain ⟨x, _, hfx⟩ := h
    by_cases hc : (activeSubscriptionCompanyIds now
        (((companies.filter (matchesAgencyQuery region)).map (·.id))) subs).contains x.id
    · rw [if_pos hc] at hfx
      by_cases hlt : effectiveDailyCount now x < agencyMaxDaily x
      · rw [if_pos hlt] at hfx
        obtain ⟨h1, _⟩ := Prod.mk.injEq .. ▸ Option.some.injEq .. ▸ hfx
        exact h1 ▸ hlt
      · rw [if_neg hlt] at hfx
        exact absurd hfx (by simp)
    · rw [if_neg hc] at hfx
      exact absurd hfx (by simp)
  · intro h
    rw [getEligibleAgencies, List.mem_filterMap]
    exact ⟨a, hmem', by rw [if_pos hsub, if_pos h]⟩
  · intro h
    simp [effectiveDailyCount, h]
  · intro h
    simp [effectiveDailyCount, h]
  · intro c hc
    rw [getEligibleAgencies, List.mem_filterMap] at hc
    obtain ⟨x, _, hfx⟩ := hc
    by_cases hcc : (activeSubscriptionCompanyIds now
        (((companies.filter (matchesAgencyQuery region)).map (·.id))) subs).contains x.id
    · rw [if_pos hcc] at hfx
      by_cases hlt : effectiveDailyCount now x < agencyMaxDaily x
      · rw [if_pos hlt] at hfx
        obtain ⟨h1, h2⟩ := Prod.mk.injEq .. ▸ Option.some.injEq .. ▸ hfx
        rw [← h2, h1]
      · rw [if_neg hlt] at hfx
        exact absurd hfx (by simp)
    · rw [if_neg hcc] at hfx
      exact absurd hfx (by simp)

/-- Witness for C5: with both sample agencies at their cap of 50, the one
with the two-day-old reset is eligible (annotated count 0) and the one with
the fresh reset is excluded. -/
theorem c5_eligibility_virtual_reset_witness :
    (agStaleCap, 0) ∈ getEligibleAgencies tNow [agStaleCap, agFreshCap] subsSample "south"
    ∧ (agFreshCap, effectiveDailyCount tNow agFreshCap)
        ∉ getEligibleAgencies tNow [agStaleCap, agFreshCap] subsSample "south" := by
  have hstale := c5_eligibility_virtual_reset tNow [agStaleCap, agFreshCap]
    subsSample "south" agStaleCap (by decide) (by decide) (by decide)
  have hfresh := c5_eligibility_virtual_reset tNow [agStaleCap, agFreshCap]
    subsSample "south" agFreshCap (by decide) (by decide) (by decide)
  constructor
  · have h := hstale.1.mpr (by decide)
    have he : effectiveDailyCount tNow agStaleCap = 0 := by decide
    exact he ▸ h
  · intro hin
    exact absurd (hfresh.1.mp hin) (by decide)

/-- C6: For a valid candidate (non-empty positions), `distributeCVToAgencies`
never throws: with zero eligible agencies it returns `{success: true,
distributed: 0}` and enqueues nothing (so the detached queue processor — the
only place delivery happens — never sees the candidate and no email send can
occur); with eligible agencies it enqueues exactly one job and returns
`{success: true, distributed: eligible.length}` — the count of resolved
agencies, fixed before any delivery is attempted. -/
theorem c6_empty_resolution_is_success (now : Int) (companies : List Agency)
    (subs : List Subscription) (queue : List DistributionTask)
    (candidate : Candidate) (hvalid : candidate.positions ≠ []) :
    (getEligibleAgencies now companies subs (extractRegionFromCandidate candidate) = [] →
      distributeCVToAgencies now companies subs queue candidate
        = Except.ok (⟨true, 0⟩, queue))
    ∧ (getEligibleAgencies now companies subs (extractRegionFromCandidate candidate) ≠ [] →
      distributeCVToAgencies now companies subs queue candidate
        = Except.ok
            (⟨true, (getEligibleAgencies now companies subs
                (extractRegionFromCandidate candidate)).length⟩,
              queue ++ [⟨candidate,
                getEligibleAgencies now companies subs
                  (extractRegionFromCandidate candidate), now, candidate.id, now⟩])) := by
  have hne : candidate.positions.isEmpty = false := by
    cases h : candidate.positions with
    | nil => exact absurd h hvalid
    | cons x l => rfl
  constructor
  · intro h
    rw [distributeCVToAgencies, hne]
    simp [h]
  · intro h
    rw [distributeCVToAgencies, hne]
    simp only [Bool.false_eq_true, if_false]
    rw [if_neg (by simpa [List.length_eq_zero] using h)]

/-- Witness for C6: with no agencies at all the sample candidate gets a
success result with zero distributed and an unchanged (empty) queue; with
one eligible agency the job is enqueued and the count is 1. -/
theorem c6_empty_resolution_is_success_witness :
    distributeCVToAgencies tNow [] [] [] candSouth = Except.ok (⟨true, 0⟩, [])
    ∧ distributeCVToAgencies tNow [agFreshLow] subsSample [] candSouth
      = Except.ok (⟨true, 1⟩,
          [⟨candSouth, [(agFreshLow, 3)], tNow, candSouth.id, tNow⟩]) := by
  constructor
  · exact (c6_empty_resolution_is_success tNow [] [] [] candSouth
      (by decide)).1 (by decide)
  · have h := (c6_empty_resolution_is_success tNow [agFreshLow] subsSample []
      candSouth (by decide)).2 (by decide)
    have he : getEligibleAgencies tNow [agFreshLow] subsSample
        (extractRegionFromCandidate candSouth) = [(agFreshLow, 3)] := by decide
    rw [h, he]
    rfl

/-- Helper: one-step unfolding of the batch dispatch schedule. -/
theorem scheduleBatches_cons_eq {α : Type} (t : Nat) (b : List α)
    (rest : List (List α)) :
    scheduleBatches t (b :: rest)
      = (b, t) :: scheduleBatches
          (if rest.isEmpty then t else t + interBatchDelayMs) rest := rfl

/-- Helper: the schedule of no batches is empty. -/
theorem scheduleBatches_nil_eq {α : Type} (t : Nat) :
    scheduleBatches (α := α) t [] = [] := rfl

/-- Helper: the batch loop produces `ceil(N / maxBatchSize)` batches. -/
theorem batchSlicesAux_length {α : Type} :
    ∀ (fuel : Nat) (ags : List α), ags.length ≤ fuel →
      (batchSlicesAux fuel ags).length
        = (ags.length + (maxBatchSize - 1)) / maxBatchSize := by
  intro fuel
  induction fuel with
  | zero =>
      intro ags h
      have he : ags = [] := List.length_eq_zero.mp (Nat.le_zero.mp h)
      subst he
      simp [batchSlicesAux, maxBatchSize]
  | succ n ih =>
      intro ags h
      cases ags with
      | nil => simp [batchSlicesAux, maxBatchSize]
      | cons a l =>
          simp only [batchSlicesAux, List.length_cons]
          rw [ih _ (by
            simp only [List.length_drop, List.length_cons, maxBatchSize] at *
            omega)]
          simp only [List.length_drop, List.length_cons, maxBatchSize]
          omega

/-- Helper: every batch the loop produces has size at most `maxBatchSize`. -/
theorem batchSlicesAux_sizes {α : Type} :
    ∀ (fuel : Nat) (ags : List α) (b : List α), b ∈ batchSlicesAux fuel ags →
      b.length ≤ maxBatchSize := by
  intro fuel
  induction fuel with
  | zero =>
      intro ags b h
      simp only [batchSlicesAux] at h
      exact absurd h (List.not_mem_nil b)
  | succ n ih =>
      intro ags b h
      cases ags with
      | nil =>
          simp only [batchSlicesAux] at h
          exact absurd h (List.not_mem_nil b)
      | cons a l =>
          simp only [batchSlicesAux] at h
          rcases List.mem_cons.mp h with h1 | h2
          · subst h1
            rw [List.length_take]
            exact Nat.min_le_left _ _
          · exact ih _ b h2

/-- Helper: the batches are consecutive slices covering the agency list. -/
theorem batchSlicesAux_flatten {α : Type} :
    ∀ (fuel : Nat) (ags : List α), ags.length ≤ fuel →
      (batchSlicesAux fuel ags).flatten = ags := by
  intro fuel
  induction fuel with
  | zero =>
      intro ags h
      have he : ags = [] := List.length_eq_zero.mp (Nat.le_zero.mp h)
      subst he
      rfl
  | succ n ih =>
      intro ags h
      cases ags with
      | nil => rfl
      | cons a l =>
          simp only [batchSlicesAux, List.flatten_cons]
          rw [ih _ (by
            simp only [List.length_drop, List.length_cons, maxBatchSize] at *
            omega),
            List.take_append_drop]

/-- Helper: the batch dispatch schedule pairs up exactly the batches, in order. -/
theorem scheduleBatches_map_fst {α : Type} :
    ∀ (t : Nat) (bs : List (List α)),
      (scheduleBatches t bs).map Prod.fst = bs := by
  intro t bs
  induction bs generalizing t with
  | nil => rfl
  | cons b rest ih =>
      rw [scheduleBatches_cons_eq, List.map_cons, ih]

/-- Helper: consecutive batch dispatches are exactly `interBatchDelayMs`
apart — the loop never waits for a batch to settle. -/
theorem scheduleBatches_chain {α : Type} :
    ∀ (t : Nat) (bs : List (List α)),
      List.Chain' (fun x y => y.2 = x.2 + interBatchDelayMs) (scheduleBatches t bs) := by
  intro t bs
  induction bs generalizing t with
  | nil => exact List.chain'_nil
  | cons b rest ih =>
      rw [scheduleBatches_cons_eq]
      cases rest with
      | nil =>
          rw [scheduleBatches_nil_eq]
          exact List.chain'_singleton _
      | cons b2 rs =>
          rw [List.isEmpty_cons, if_neg (by simp), scheduleBatches_cons_eq]
          refine List.chain'_cons.mpr ⟨rfl, ?_⟩
          rw [← scheduleBatches_cons_eq]
          exact ih _

/-- C3 (counterexample): with 101 eligible agencies (two batches) and every
per-agency send taking 1000 ms, the second batch is dispatched at 500 ms
while the first batch only settles at 1000 ms — so batch 2's sends start
before batch 1's sends have settled plus the inter-batch delay, refuting the
claimed settlement ordering at this concrete input. -/
theorem c3_batches_overlap_counterexample :
    (processSingleDistributionSchedule (List.range 101)).map Prod.snd
      = [0, interBatchDelayMs]
    ∧ batchMaxDuration (fun _ => 1000) ((List.range 101).take 100) = 1000
    ∧ ¬ (0 + 1000 + interBatchDelayMs ≤ interBatchDelayMs) := by
  refine ⟨by decide, by decide, by decide⟩

/-- C3 (amended): processing a job issues exactly `ceil(N / maxBatchSize)`
consecutive batches, each of size at most `maxBatchSize`, jointly covering
the agency list in order; batch k+1 is dispatched exactly
`interBatchDelayMs` (the literal 500 ms) after batch k's dispatch,
irrespective of when batch k's sends settle — the batch promises run
concurrently and are awaited together after the loop. -/
theorem c3_batch_count_and_pacing (ags : List Agency) :
    (batchSlices ags).length = (ags.length + (maxBatchSize - 1)) / maxBatchSize
    ∧ (∀ b ∈ batchSlices ags, b.length ≤ maxBatchSize)
    ∧ (batchSlices ags).flatten = ags
    ∧ (processSingleDistributionSchedule ags).map Prod.fst = batchSlices ags
    ∧ List.Chain' (fun x y => y.2 = x.2 + interBatchDelayMs)
        (processSingleDistributionSchedule ags) := by
  refine ⟨batchSlicesAux_length _ _ le_rfl,
    fun b hb => batchSlicesAux_sizes _ _ b hb,
    batchSlicesAux_flatten _ _ le_rfl,
    scheduleBatches_map_fst 0 _,
    scheduleBatches_chain 0 _⟩

/-- Witness for C3 (amended): 101 concrete agencies yield two batches,
dispatched at 0 ms and 500 ms. -/
theorem c3_batch_count_and_pacing_witness :
    (batchSlices (List.replicate 101 agFreshLow)).length = 2
    ∧ (processSingleDistributionSchedule (List.replicate 101 agFreshLow)).map Prod.snd
      = [0, interBatchDelayMs] := by
  have h := c3_batch_count_and_pacing (List.replicate 101 agFreshLow)
  refine ⟨by rw [h.1]; decide, by decide⟩

/-- Helper: one-step unfolding of the drain schedule. -/
theorem drainSchedule_cons_eq (dur : DistributionTask → Nat) (t : Nat)
    (task : DistributionTask) (rest : List DistributionTask) :
    drainSchedule dur t (task :: rest)
      = (task, t) :: drainSchedule dur
          (if rest.isEmpty then t + dur task else t + dur task + batchDelay) rest := rfl

/-- Helper: the drain schedule of an empty queue is empty. -/
theorem drainSchedule_nil_eq (dur : DistributionTask → Nat) (t : Nat) :
    drainSchedule dur t [] = [] := rfl

/-- Helper: the drain loop processes exactly the queued jobs, in FIFO order. -/
theorem drainSchedule_map_fst (dur : DistributionTask → Nat) :
    ∀ (t : Nat) (tasks : List DistributionTask),
      (drainSchedule dur t tasks).map Prod.fst = tasks := by
  intro t tasks
  induction tasks generalizing t with
  | nil => rfl
  | cons task rest ih =>
      rw [drainSchedule_cons_eq, List.map_cons, ih]

/-- Helper: each queued job starts exactly when the previous job has fully
finished plus the mandatory `batchDelay` (1000 ms) pause — jobs never
overlap, and a fixed delay is inserted between consecutive jobs. -/
theorem drainSchedule_chain (dur : DistributionTask → Nat) :
    ∀ (t : Nat) (tasks : List DistributionTask),
      List.Chain' (fun x y => y.2 = x.2 + dur x.1 + batchDelay)
        (drainSchedule dur t tasks) := by
  intro t tasks
  induction tasks generalizing t with
  | nil => exact List.chain'_nil
  | cons task rest ih =>
      rw [drainSchedule_cons_eq]
      cases rest with
      | nil =>
          rw [drainSchedule_nil_eq]
          exact List.chain'_singleton _
      | cons task2 rs =>
          rw [List.isEmpty_cons, if_neg (by simp), drainSchedule_cons_eq]
          refine List.chain'_cons.mpr ⟨rfl, ?_⟩
          rw [← drainSchedule_cons_eq]
          exact ih _

/-- C9 (counterexample): with two queued jobs that each take 0 ms to
process, the drain loop starts the second job at 1000 ms, not at the first
job's settlement time 0 ms: `await delay(this.batchDelay)` inserts a
mandatory 1000 ms pause between two different jobs, refuting the claim's
"no mandatory delay between jobs" at this concrete input. -/
theorem c9_inter_job_delay_counterexample :
    (drainSchedule (fun _ => 0) 0 [taskA, taskB]).map Prod.snd = [0, batchDelay]
    ∧ (drainSchedule (fun _ => 0) 0 [taskA, taskB]).map Prod.snd ≠ [0, 0] := by
  refine ⟨by decide, by decide⟩

/-- C9 (amended): the dispatch queue drains strictly FIFO and sequentially —
the `isProcessing` guard makes a second drain call a no-op, a drain on an
empty queue is a no-op, an actual drain fully processes each job before the
next starts (job k+1 starts exactly when job k settles plus the mandatory
`batchDelay` = 1000 ms inter-job pause, so no two jobs overlap), and the
drain ends with `isProcessing = false` and an empty queue so a subsequent
enqueue restarts it. -/
theorem c9_queue_drain_sequential (dur : DistributionTask → Nat) (s : ServiceState) :
    (s.isProcessing = true → processDistributionQueue dur s = (s, []))
    ∧ (s.distributionQueue = [] → processDistributionQueue dur s = (s, []))
    ∧ (s.isProcessing = false → s.distributionQueue ≠ [] →
        (processDistributionQueue dur s).1 = ⟨false, []⟩
        ∧ (processDistributionQueue dur s).2 = drainSchedule dur 0 s.distributionQueue)
    ∧ (drainSchedule dur 0 s.distributionQueue).map Prod.fst = s.distributionQueue
    ∧ List.Chain' (fun x y => y.2 = x.2 + dur x.1 + batchDelay)
        (drainSchedule dur 0 s.distributionQueue) := by
  refine ⟨?_, ?_, ?_, drainSchedule_map_fst dur 0 _, drainSchedule_chain dur 0 _⟩
  · intro h
    simp [processDistributionQueue, h]
  · intro h
    simp [processDistributionQueue, h]
  · intro h1 h2
    have hne : s.distributionQueue.isEmpty = false := by
      cases hq : s.distributionQueue with
      | nil => exact absurd hq h2
      | cons x l => rfl
    rw [processDistributionQueue, h1, hne]
    exact ⟨rfl, rfl⟩

/-- Witness for C9 (amended): a concrete idle state with two queued jobs of
7 ms each drains them in order at start times 0 and 1007, ending idle and
empty. -/
theorem c9_queue_drain_sequential_witness :
    (processDistributionQueue (fun _ => 7) ⟨false, [taskA, taskB]⟩).1
      = ⟨false, []⟩
    ∧ (processDistributionQueue (fun _ => 7) ⟨false, [taskA, taskB]⟩).2
      = drainSchedule (fun _ => 7) 0 [taskA, taskB]
    ∧ (drainSchedule (fun _ => 7) 0 [taskA, taskB]).map Prod.fst = [taskA, taskB] := by
  have h := c9_queue_drain_sequential (fun _ => 7) ⟨false, [taskA, taskB]⟩
  have h3 := h.2.2.1 rfl (by decide)
  exact ⟨h3.1, h3.2, h.2.2.2.1⟩

/-- Helper: `logDistributionAttempt` is append-then-conditionally-trim. -/
theorem logDistributionAttempt_eq (now : Int) (buf : List LogEntry)
    (cid aid : Nat) (success : Bool) (err : Option String) (pt : Int) :
    logDistributionAttempt now buf cid aid success err pt
      = (if (buf ++ [(⟨now, cid, aid, success, err, pt⟩ : LogEntry)]).length > 1000
         then (buf ++ [(⟨now, cid, aid, success, err, pt⟩ : LogEntry)]).drop 100
         else buf ++ [(⟨now, cid, aid, success, err, pt⟩ : LogEntry)]) := rfl

/-- Helper: the sample outcome list has one entry per index. -/
theorem mkOutcomes_length (n : Nat) : (mkOutcomes n).length = n := by
  unfold mkOutcomes
  simp

/-- Helper: the sample outcome list grows by appending the next outcome. -/
theorem mkOutcomes_succ (n : Nat) :
    mkOutcomes (n + 1) = mkOutcomes n ++ [mkOutcome n] := by
  unfold mkOutcomes
  rw [List.range_succ, List.map_append]
  rfl

/-- Helper: inserting one more sample outcome goes through
`logDistributionAttempt` on the buffer built so far. -/
theorem insertOutcomes_succ (n : Nat) :
    insertOutcomes (n + 1)
      = logDistributionAttempt 0 (insertOutcomes n) n 0 true none 0 := by
  unfold insertOutcomes
  rw [List.range_succ, List.foldl_append]
  rfl

/-- Helper: below capacity, the monitor buffer is exactly the inserted
outcomes in insertion order (no trimming happens). -/
theorem insertOutcomes_eq_of_le : ∀ n, n ≤ 1000 → insertOutcomes n = mkOutcomes n := by
  intro n
  induction n with
  | zero => intro _; rfl
  | succ m ih =>
      intro h
      rw [insertOutcomes_succ, ih (by omega), logDistributionAttempt_eq]
      have hlen : (mkOutcomes m ++ [(⟨0, m, 0, true, none, 0⟩ : LogEntry)]).length = m + 1 := by
        rw [List.length_append, mkOutcomes_length]
        rfl
      rw [if_neg (by rw [hlen]; omega)]
      rw [mkOutcomes_succ]
      rfl

/-- Helper: the 1001st insertion into a full buffer trims the oldest 100
outcomes. -/
theorem insertOutcomes_1001 :
    insertOutcomes 1001 = (mkOutcomes 1001).drop 100 := by
  rw [insertOutcomes_succ 1000, insertOutcomes_eq_of_le 1000 le_rfl,
    logDistributionAttempt_eq]
  have hlen : (mkOutcomes 1000 ++ [(⟨0, 1000, 0, true, none, 0⟩ : LogEntry)]).length = 1001 := by
    rw [List.length_append, mkOutcomes_length]
    rfl
  rw [if_pos (by rw [hlen]; omega), mkOutcomes_succ]
  rfl

/-- C7: After any `logDistributionAttempt` call on a buffer within capacity,
the buffer again holds at most 1000 entries; the result is always a final
segment of append-order (only the oldest entries are dropped, FIFO
eviction); and after inserting 1001 distinguishable outcomes into an empty
buffer, the oldest outcome is gone. -/
theorem c7_ring_buffer_bounded (now : Int) (buf : List LogEntry)
    (cid aid : Nat) (success : Bool) (err : Option String) (pt : Int)
    (h : buf.length ≤ 1000) :
    (logDistributionAttempt now buf cid aid success err pt).length ≤ 1000
    ∧ (∃ k, logDistributionAttempt now buf cid aid success err pt
        = (buf ++ [(⟨now, cid, aid, success, err, pt⟩ : LogEntry)]).drop k)
    ∧ mkOutcome 0 ∉ insertOutcomes 1001 := by
  refine ⟨?_, ?_, ?_⟩
  · rw [logDistributionAttempt_eq]
    split
    · rw [List.length_drop, List.length_append]
      simp only [List.length_singleton]
      omega
    · rename_i hgt
      rw [List.length_append, List.length_singleton]
      rw [List.length_append, List.length_singleton] at hgt
      omega
  · rw [logDistributionAttempt_eq]
    split
    · exact ⟨100, rfl⟩
    · exact ⟨0, (List.drop_zero _).symm⟩
  · rw [insertOutcomes_1001]
    decide

/-- Witness for C7: inserting one outcome into an empty buffer. -/
theorem c7_ring_buffer_bounded_witness :
    (logDistributionAttempt 0 [] 5 6 true none 7).length ≤ 1000
    ∧ (∃ k, logDistributionAttempt 0 [] 5 6 true none 7
        = ([] ++ [(⟨0, 5, 6, true, none, 7⟩ : LogEntry)]).drop k)
    ∧ mkOutcome 0 ∉ insertOutcomes 1001 :=
  c7_ring_buffer_bounded 0 [] 5 6 true none 7 (by decide)

/-- Helper: characterization of the sequential classification block — the
resulting status is the most severe triggered condition (the `'critical'`
assignment runs last and overrides the two `'warning'` ones), and every
triggered condition contributes its issue. -/
theorem classifyHealth_spec (fr avg sr : ℚ) :
    (classifyHealth fr avg sr).1
      = (if sr < minSuccessRateThreshold then "critical"
         else if fr > maxFailureRateThreshold ∨ avg > maxProcessingTimeThreshold
           then "warning"
         else "healthy")
    ∧ (fr > maxFailureRateThreshold →
        DistIssue.highFailureRate ∈ (classifyHealth fr avg sr).2)
    ∧ (avg > maxProcessingTimeThreshold →
        DistIssue.slowProcessing ∈ (classifyHealth fr avg sr).2)
    ∧ (sr < minSuccessRateThreshold →
        DistIssue.lowSuccessRate ∈ (classifyHealth fr avg sr).2) := by
  unfold classifyHealth
  by_cases h1 : fr > maxFailureRateThreshold <;>
    by_cases h2 : avg > maxProcessingTimeThreshold <;>
      by_cases h3 : sr < minSuccessRateThreshold <;>
        simp [h1, h2, h3]

/-- Helper: on a non-empty window, `getHealthStatus` reports the classified
status and (when unhealthy) the accumulated issues. -/
theorem getHealthStatus_pos (now : Int) (buf : List LogEntry)
    (h : windowTotal now buf ≠ 0) :
    (getHealthStatus now buf).status
      = (classifyHealth (windowFailureRate now buf)
          (windowAvgProcessingTime now buf) (windowSuccessRate now buf)).1
    ∧ (getHealthStatus now buf).issues
      = (if (classifyHealth (windowFailureRate now buf)
            (windowAvgProcessingTime now buf) (windowSuccessRate now buf)).1 ≠ "healthy"
         then (classifyHealth (windowFailureRate now buf)
            (windowAvgProcessingTime now buf) (windowSuccessRate now buf)).2
         else []) := by
  unfold getHealthStatus
  rw [if_neg h]
  exact ⟨rfl, rfl⟩

/-- Helper: a non-empty trailing-hour window has a non-zero attempt count. -/
theorem windowTotal_ne_zero (now : Int) (buf : List LogEntry)
    (h : recentLogs now buf ≠ []) : windowTotal now buf ≠ 0 := by
  unfold windowTotal
  intro hc
  exact h (List.length_eq_zero.mp hc)

/-- Helper: over a non-empty window, success and failure rates are exact
complements — `failed` is defined as `totalAttempts - successful` and both
rates share the denominator `totalAttempts`. -/
theorem windowRates_complement (now : Int) (buf : List LogEntry)
    (h : windowTotal now buf ≠ 0) :
    windowSuccessRate now buf = 1 - windowFailureRate now buf := by
  unfold windowSuccessRate windowFailureRate windowFailed
  have hle : windowSuccessful now buf ≤ windowTotal now buf :=
    List.length_filter_le _ _
  have ht : ((windowTotal now buf : ℚ)) ≠ 0 := by exact_mod_cast h
  rw [Nat.cast_sub hle, sub_div, div_self ht]
  ring

/-- C8: `getHealthStatus` over the trailing-hour window returns `'unknown'`
when the window is empty; otherwise its status equals the most severe
triggered condition (critical > warning > healthy): at least `'warning'`
whenever the failure rate exceeds 0.10 or the average processing time
exceeds 30000 ms, and `'critical'` whenever the success rate is below 0.90
(critical overriding warning); every triggered condition contributes its
entry to the issues list. -/
theorem c8_health_aggregation (now : Int) (buf : List LogEntry) :
    (recentLogs now buf = [] → (getHealthStatus now buf).status = "unknown")
    ∧ (recentLogs now buf ≠ [] →
        (getHealthStatus now buf).status
          = (if windowSuccessRate now buf < minSuccessRateThreshold then "critical"
             else if windowFailureRate now buf > maxFailureRateThreshold
                 ∨ windowAvgProcessingTime now buf > maxProcessingTimeThreshold
               then "warning"
             else "healthy")
        ∧ ((windowFailureRate now buf > maxFailureRateThreshold
              ∨ windowAvgProcessingTime now buf > maxProcessingTimeThreshold) →
            1 ≤ severityRank (getHealthStatus now buf).status)
        ∧ (windowSuccessRate now buf < minSuccessRateThreshold →
            (getHealthStatus now buf).status = "critical")
        ∧ (windowFailureRate now buf > maxFailureRateThreshold →
            DistIssue.highFailureRate ∈ (getHealthStatus now buf).issues)
        ∧ (windowAvgProcessingTime now buf > maxProcessingTimeThreshold →
            DistIssue.slowProcessing ∈ (getHealthStatus now buf).issues)
        ∧ (windowSuccessRate now buf < minSuccessRateThreshold →
            DistIssue.lowSuccessRate ∈ (getHealthStatus now buf).issues)) := by
  constructor
  · intro h
    unfold getHealthStatus windowTotal
    rw [h]
    rfl
  · intro hne
    have htot := windowTotal_ne_zero now buf hne
    have hpos := getHealthStatus_pos now buf htot
    have hspec := classifyHealth_spec (windowFailureRate now buf)
      (windowAvgProcessingTime now buf) (windowSuccessRate now buf)
    have hstat : (getHealthStatus now buf).status
        = (if windowSuccessRate now buf < minSuccessRateThreshold then "critical"
           else if windowFailureRate now buf > maxFailureRateThreshold
               ∨ windowAvgProcessingTime now buf > maxProcessingTimeThreshold
             then "warning"
           else "healthy") := by
      rw [hpos.1, hspec.1]
    have hunhealthy : (windowSuccessRate now buf < minSuccessRateThreshold
          ∨ windowFailureRate now buf > maxFailureRateThreshold
          ∨ windowAvgProcessingTime now buf > maxProcessingTimeThreshold) →
        (getHealthStatus now buf).issues
          = (classifyHealth (windowFailureRate now buf)
              (windowAvgProcessingTime now buf) (windowSuccessRate now buf)).2 := by
      intro hcond
      rw [hpos.2, hspec.1, if_pos ?_]
      rcases hcond with h3 | hrest
      · rw [if_pos h3]
        decide
      · by_cases h3 : windowSuccessRate now buf < minSuccessRateThreshold
        · rw [if_pos h3]
          decide
        · rw [if_neg h3, if_pos hrest]
          decide
    refine ⟨hstat, ?_, ?_, ?_, ?_, ?_⟩
    · intro hor
      rw [hstat]
      by_cases h3 : windowSuccessRate now buf < minSuccessRateThreshold
      · rw [if_pos h3]
        decide
      · rw [if_neg h3, if_pos hor]
        decide
    · intro h3
      rw [hstat, if_pos h3]
    · intro hcf
      rw [hunhealthy (Or.inr (Or.inl hcf))]
      exact hspec.2.1 hcf
    · intro hca
      rw [hunhealthy (Or.inr (Or.inr hca))]
      exact hspec.2.2.1 hca
    · intro hcs
      rw [hunhealthy (Or.inl hcs)]
      exact hspec.2.2.2 hcs

/-- Witness for C8: a 20-entry window with 3 failures (failure rate 15%,
success rate 85%) classifies as critical with both rate issues recorded. -/
theorem c8_health_aggregation_witness :
    (getHealthStatus 0 bufHealth).status = "critical"
    ∧ DistIssue.highFailureRate ∈ (getHealthStatus 0 bufHealth).issues
    ∧ DistIssue.lowSuccessRate ∈ (getHealthStatus 0 bufHealth).issues := by
  have ht : windowTotal 0 bufHealth = 20 := by decide
  have hs : windowSuccessful 0 bufHealth = 17 := by decide
  have hf : windowFailed 0 bufHealth = 3 := by decide
  have hfr : windowFailureRate 0 bufHealth > maxFailureRateThreshold := by
    unfold windowFailureRate maxFailureRateThreshold
    rw [hf, ht]
    norm_num
  have hsr : windowSuccessRate 0 bufHealth < minSuccessRateThreshold := by
    unfold windowSuccessRate minSuccessRateThreshold
    rw [hs, ht]
    norm_num
  have h := (c8_health_aggregation 0 bufHealth).2 (by decide)
  exact ⟨h.2.2.1 hsr, h.2.2.2.1 hfr, h.2.2.2.2.2 hsr⟩

/-- C10: on any non-empty window, a failure rate above the 0.10 threshold
forces the final status to `'critical'`, never a standalone `'warning'`:
the success rate is exactly `1 - failureRate`, so it drops below the 0.90
threshold, and the `'critical'` assignment runs after the `'warning'` one. -/
theorem c10_high_failure_forces_critical (now : Int) (buf : List LogEntry)
    (hne : recentLogs now buf ≠ [])
    (hfr : windowFailureRate now buf > maxFailureRateThreshold) :
    (getHealthStatus now buf).status = "critical"
    ∧ windowSuccessRate now buf < minSuccessRateThreshold
    ∧ windowSuccessRate now buf = 1 - windowFailureRate now buf := by
  have htot := windowTotal_ne_zero now buf hne
  have hsum := windowRates_complement now buf htot
  have hsr : windowSuccessRate now buf < minSuccessRateThreshold := by
    rw [hsum]
    unfold maxFailureRateThreshold at hfr
    unfold minSuccessRateThreshold
    linarith
  have hpos := getHealthStatus_pos now buf htot
  have hspec := classifyHealth_spec (windowFailureRate now buf)
    (windowAvgProcessingTime now buf) (windowSuccessRate now buf)
  refine ⟨?_, hsr, hsum⟩
  rw [hpos.1, hspec.1, if_pos hsr]

/-- Witness for C10: the 15%-failure window classifies as critical with
success rate 85% = 1 - 15%. -/
theorem c10_high_failure_forces_critical_witness :
    (getHealthStatus 0 bufHealth).status = "critical"
    ∧ windowSuccessRate 0 bufHealth < minSuccessRateThreshold
    ∧ windowSuccessRate 0 bufHealth = 1 - windowFailureRate 0 bufHealth := by
  have hf : windowFailed 0 bufHealth = 3 := by decide
  have ht : windowTotal 0 bufHealth = 20 := by decide
  exact c10_high_failure_forces_critical 0 bufHealth (by decide)
    (by unfold windowFailureRate maxFailureRateThreshold; rw [hf, ht]; norm_num)

end CVGo
